import Mathlib

/-!
Verification of the configuration-merge-and-validate core of `bossimage`
(`bossimage/core.py`).  Python dictionaries are embedded as insertion-ordered
association lists over string keys; YAML/JSON-style values are embedded as the
inductive type `Value`.  The functions below are direct translations of the
corresponding Python functions; each carries a doc comment naming its source.
-/

namespace Bossimage

/-- A YAML/JSON-style value as manipulated by `core.py`: strings, integers,
booleans, sequences and string-keyed mappings. -/
inductive Value where
  | str (s : String)
  | int (n : Int)
  | bool (b : Bool)
  | list (xs : List Value)
  | dict (fields : List (String × Value))

/-- A Python `dict` with string keys, embedded as an insertion-ordered
association list whose keys are unique in any state reachable from actual
Python dictionaries. -/
abbrev AssocD (α : Type) : Type := List (String × α)

/-- The embedding of a Python configuration mapping (string keys, `Value`
values). -/
abbrev Dict : Type := AssocD Value

/-- `d[k]` as a total lookup: the value at the first occurrence of key `k`. -/
def dlookup {α : Type} : AssocD α → String → Option α
  | [], _ => none
  | (a, b) :: rest, key => if a = key then some b else dlookup rest key

/-- Python's `k in d` membership test. -/
def dcontains {α : Type} (d : AssocD α) (k : String) : Bool :=
  (dlookup d k).isSome

/-- Python's `d[k] = v`: replace the value at `k` in place if present,
otherwise append the new binding (insertion order semantics). -/
def dinsert {α : Type} : AssocD α → String → α → AssocD α
  | [], key, val => [(key, val)]
  | (a, b) :: rest, key, val =>
    if a = key then (a, val) :: rest else (a, b) :: dinsert rest key val

/-- Python's `d.update(other)`: assign every binding of `other` into `d`,
in iteration order. -/
def dupdate {α : Type} (d other : AssocD α) : AssocD α :=
  other.foldl (fun acc kv => dinsert acc kv.1 kv.2) d

/-- A dict comprehension `{k: v for k, v in d.items() if p k}`. -/
def filterKeys {α : Type} (d : AssocD α) (p : String → Bool) : AssocD α :=
  d.filter (fun kv => p kv.1)

/-- `Option`-valued traversal (Python iteration that may raise `KeyError`). -/
def mapMO {α β : Type} (f : α → Option β) : List α → Option (List β)
  | [] => some []
  | x :: xs =>
    match f x with
    | none => none
    | some y =>
      match mapMO f xs with
      | none => none
      | some ys => some (y :: ys)

/-- `Except`-valued traversal (voluptuous validation of a sequence; the first
`Invalid` aborts the whole validation). -/
def mapME {α β : Type} (f : α → Except String β) : List α → Except String (List β)
  | [] => .ok []
  | x :: xs =>
    match f x with
    | .error e => .error e
    | .ok y =>
      match mapME f xs with
      | .error e => .error e
      | .ok ys => .ok (y :: ys)

/-- `platform['name']` / `profile['name']` as read by `merge_config`
(core.py 229): the record's name, provided it is present and a string. -/
def getName (d : Dict) : Option String :=
  match dlookup d "name" with
  | some (.str s) => some s
  | _ => none

/-- The body of the inner loop of `merge_config` (core.py 230–240): the fully
merged record for one platform × profile pair, given the two records' names.
Order of operations, as in the source: platform fields except `name`; then
`platform` set to the platform name; then driver keys not present in the
platform record; then profile fields except `name`; then `profile` set to the
profile name. -/
def mergeEntry (driver platform profile : Dict) (pn qn : String) : Dict :=
  let m := filterKeys platform (fun k => k != "name")
  let m := dinsert m "platform" (.str pn)
  let m := dupdate m (filterKeys driver (fun k => !(dcontains platform k)))
  let m := dupdate m (filterKeys profile (fun k => k != "name"))
  dinsert m "profile" (.str qn)

/-- One (instance-key, record) pair produced by `merge_config`; `none` models
the `KeyError` raised when a record has no (string) `name`. -/
def entryFor (driver platform profile : Dict) : Option (String × Dict) :=
  match getName platform, getName profile with
  | some pn, some qn =>
    some (pn ++ "-" ++ qn, mergeEntry driver platform profile pn qn)
  | _, _ => none

/-- All pairs produced by one platform across the profile list, in iteration
order. -/
def rowFor (driver platform : Dict) (profiles : List Dict) :
    Option (List (String × Dict)) :=
  mapMO (fun q => entryFor driver platform q) profiles

/-- All (instance-key, record) pairs of the nested `for` loops of
`merge_config`, in iteration order. -/
def mergePairs (driver : Dict) : List Dict → List Dict → Option (List (String × Dict))
  | [], _ => some []
  | p :: ps, profiles =>
    match rowFor driver p profiles with
    | none => none
    | some row =>
      match mergePairs driver ps profiles with
      | none => none
      | some rest => some (row ++ rest)

/-- Embeds `merge_config` (core.py 225–241).  The source receives one mapping
`c` and reads `c['driver']`, `c['platforms']` and `c['profiles']`; here the
three components are passed directly.  The successive `merged[instance] = ...`
assignments of the loop are the fold of `dinsert` over the pairs in iteration
order, starting from the empty dict; a record whose `name` is missing or not a
string (a `KeyError` in the source) yields `none`. -/
def merge_config (driver : Dict) (platforms profiles : List Dict) :
    Option (AssocD Dict) :=
  match mergePairs driver platforms profiles with
  | none => none
  | some pairs => some (pairs.foldl (fun acc kv => dinsert acc kv.1 kv.2) [])

/-!  Regex validators (core.py 243–264).  The three patterns used by the
source (`snap-[0-9a-f]{8}`, `subnet-[0-9a-f]{8}`, `ephemeral\d+`) are built
from literals, fixed-count character classes and a one-or-more class; `RE`
captures exactly those constructs, and `matchRE` implements Python's
`re.match`: anchored at the start of the string, trailing characters
ignored. -/

/-- The fragment of Python regular expressions used by `core.py`. -/
inductive RE where
  | lit (s : List Char)
  | cls (p : Char → Bool) (n : Nat)
  | plus (p : Char → Bool)
  | seq (a b : RE)

/-- Consume an exact literal from the front of the input. -/
def dropLit : List Char → List Char → Option (List Char)
  | [], cs => some cs
  | _ :: _, [] => none
  | p :: ps, c :: cs => if c = p then dropLit ps cs else none

/-- Consume exactly `n` characters of class `p` (the `{n}` quantifier). -/
def takeCls (p : Char → Bool) : Nat → List Char → Option (List Char)
  | 0, cs => some cs
  | _ + 1, [] => none
  | n + 1, c :: cs => if p c then takeCls p n cs else none

/-- Match a pattern at the front of the input, returning the unconsumed
suffix on success (greedy `+`, as in Python). -/
def matchRE : RE → List Char → Option (List Char)
  | .lit s, cs => dropLit s cs
  | .cls p n, cs => takeCls p n cs
  | .plus p, cs =>
    match cs with
    | [] => none
    | c :: rest => if p c then some (rest.dropWhile p) else none
  | .seq a b, cs =>
    match matchRE a cs with
    | none => none
    | some rest => matchRE b rest

/-- Python's `re.match(pat, s)`: match anchored at the start of `s` only. -/
def reMatch (r : RE) (s : String) : Option (List Char) :=
  matchRE r s.data

/-- A `[0-9a-f]` character. -/
def isHexLower (c : Char) : Bool :=
  c.isDigit || ('a' ≤ c && c ≤ 'f')

/-- The pattern `snap-[0-9a-f]{8}` (core.py 258). -/
def snapPat : RE := .seq (.lit "snap-".data) (.cls isHexLower 8)

/-- The pattern `subnet-[0-9a-f]{8}` (core.py 255). -/
def subnetPat : RE := .seq (.lit "subnet-".data) (.cls isHexLower 8)

/-- The pattern `ephemeral\d+` (core.py 261). -/
def ephemeralPat : RE := .seq (.lit "ephemeral".data) (.plus Char.isDigit)

/-- Embeds `invalid` (core.py 243–244): the message of the `voluptuous.Invalid`
raised for a bad field, `'Invalid {}: {}'.format(kind, item)`. -/
def invalid (kind item : String) : String :=
  "Invalid " ++ kind ++ ": " ++ item

/-- Embeds `re_validator` (core.py 246–248): raise `invalid(kind, s)` unless
`re.match(pat, s)` succeeds, else return `s`. -/
def re_validator (pat : RE) (s : String) (kind : String) : Except String String :=
  match reMatch pat s with
  | none => .error (invalid kind s)
  | some _ => .ok s

/-- Embeds `coll_validator` (core.py 250–252): raise `invalid(kind, thing)`
unless `thing` is in `coll`, else return `thing`. -/
def coll_validator (coll : List String) (kind thing : String) : Except String String :=
  if coll.contains thing then .ok thing else .error (invalid kind thing)

/-- Embeds `is_subnet_id` (core.py 254–255). -/
def is_subnet_id (s : String) : Except String String :=
  re_validator subnetPat s "subnet_id"

/-- Embeds `is_snapshot_id` (core.py 257–258). -/
def is_snapshot_id (s : String) : Except String String :=
  re_validator snapPat s "snapshot_id"

/-- Embeds `is_virtual_name` (core.py 260–261). -/
def is_virtual_name (s : String) : Except String String :=
  re_validator ephemeralPat s "virtual_name"

/-- Embeds `is_volume_type` (core.py 263–264). -/
def is_volume_type (s : String) : Except String String :=
  coll_validator ["gp2", "io1", "standard"] "volume_type" s

/-!  The two voluptuous schemas (core.py 266–304), embedded as validation
functions.  `voluptuous.Schema` defaults: unmarked dict keys are optional;
a dict rejects keys matching no key schema (`PREVENT_EXTRA`) unless the
schema was built with `extra=ALLOW_EXTRA`, and the extra-key policy
propagates into nested dict schemas; `Optional(k, default=v)` inserts the
default when the key is absent.  Error messages are abbreviated except for
the validator messages produced by `invalid`, which are exact. -/

/-- The voluptuous value schema `str`: an `isinstance(str)` check. -/
def validateStr : Value → Except String Value
  | .str s => .ok (.str s)
  | _ => .error "expected str"

/-- The voluptuous value schema `int`. -/
def validateInt : Value → Except String Value
  | .int n => .ok (.int n)
  | _ => .error "expected int"

/-- The voluptuous value schema `bool`. -/
def validateBool : Value → Except String Value
  | .bool b => .ok (.bool b)
  | _ => .error "expected bool"

/-- The voluptuous value schema `{ v.Extra: object }`: any mapping. -/
def validateAnyDict : Value → Except String Value
  | .dict d => .ok (.dict d)
  | _ => .error "expected a dictionary"

/-- One field of the nested `ebs` schema (core.py 292–299); keys outside the
enumerated set are rejected (`PREVENT_EXTRA`). -/
def validateEbsField (k : String) (v : Value) : Except String Value :=
  if k = "volume_size" then validateInt v
  else if k = "volume_type" then
    match v with
    | .str s => (is_volume_type s).map Value.str
    | _ => .error (invalid "volume_type" "non-string")
  else if k = "delete_on_termination" then validateBool v
  else if k = "encrypted" then validateBool v
  else if k = "iops" then validateInt v
  else if k = "snapshot_id" then
    match v with
    | .str s => (is_snapshot_id s).map Value.str
    | _ => .error (invalid "snapshot_id" "non-string")
  else .error ("extra keys not allowed @ " ++ k)

/-- The nested `ebs` schema (core.py 292–299): a mapping of optional,
individually validated fields. -/
def validateEbs : Value → Except String Value
  | .dict d =>
    (mapME (fun kv => (validateEbsField kv.1 kv.2).map (fun w => (kv.1, w))) d).map Value.dict
  | _ => .error "expected a dictionary"

/-- One field of a block-device-mapping entry (core.py 290–302). -/
def validateBdmField (k : String) (v : Value) : Except String Value :=
  if k = "device_name" then validateStr v
  else if k = "ebs" then validateEbs v
  else if k = "no_device" then validateStr v
  else if k = "virtual_name" then
    match v with
    | .str s => (is_virtual_name s).map Value.str
    | _ => .error (invalid "virtual_name" "non-string")
  else .error ("extra keys not allowed @ " ++ k)

/-- One block-device-mapping entry (core.py 290–302): must be a mapping,
`device_name` is required, the other fields are optional. -/
def validateBdm : Value → Except String Value
  | .dict d =>
    (match mapME (fun kv => (validateBdmField kv.1 kv.2).map (fun w => (kv.1, w))) d with
     | .error e => .error e
     | .ok out =>
       if dcontains d "device_name" = false then
         .error "required key not provided @ device_name"
       else .ok (.dict out))
  | _ => .error "expected a dictionary"

/-- The `block_device_mappings` schema: a sequence of entries. -/
def validateBdmList : Value → Except String Value
  | .list xs => (mapME validateBdm xs).map Value.list
  | _ => .error "expected a list"

/-- One field of a resolved record (core.py 283–302); keys outside the
enumerated set are rejected (`PREVENT_EXTRA`). -/
def validateRecordField (k : String) (v : Value) : Except String Value :=
  if k = "platform" then validateStr v
  else if k = "profile" then validateStr v
  else if k = "extra_vars" then validateAnyDict v
  else if k = "image" then validateStr v
  else if k = "instance_type" then validateStr v
  else if k = "username" then validateStr v
  else if k = "block_device_mappings" then validateBdmList v
  else .error ("extra keys not allowed @ " ++ k)

/-- `voluptuous.Optional(k, default=v)`: insert the default when the key is
absent from the validated output. -/
def withDefault (d : AssocD Value) (k : String) (v : Value) : AssocD Value :=
  if dcontains d k then d else dinsert d k v

/-- Validation of one resolved record against the inner dict schema of
`post_merge_schema` (core.py 282–304): every present field validated,
`image` and `instance_type` required, `username` defaulting to `ec2-user`
and `block_device_mappings` defaulting to `[]`. -/
def validateRecord (d : Dict) : Except String Dict :=
  match mapME (fun kv => (validateRecordField kv.1 kv.2).map (fun w => (kv.1, w))) d with
  | .error e => .error e
  | .ok out =>
    if dcontains d "image" = false then
      .error "required key not provided @ image"
    else if dcontains d "instance_type" = false then
      .error "required key not provided @ instance_type"
    else
      .ok (withDefault (withDefault out "username" (.str "ec2-user"))
        "block_device_mappings" (.list []))

/-- Embeds `post_merge_schema` (core.py 281–304) applied to a merged result:
the outer key schema `str` admits every instance key, and each record is
validated by `validateRecord`. -/
def post_merge_schema (m : AssocD Dict) : Except String (AssocD Dict) :=
  mapME (fun kv =>
    match validateRecord kv.2 with
    | .error e => .error e
    | .ok r => .ok (kv.1, r)) m

/-- The implicit profile list `[{'name': 'default', 'extra_vars': {}}]`
(core.py 267–270), as a record. -/
def default_profile : Dict :=
  [("name", .str "default"), ("extra_vars", .dict [])]

/-- The `default_profiles` value substituted by `pre_merge_schema` when no
`profiles` key is supplied (core.py 267–270). -/
def default_profiles : Value := .list [.dict default_profile]

/-- A platform or profile entry in the raw document: must be a mapping with a
required string `name`; all other keys pass through (`ALLOW_EXTRA`). -/
def validateNamedEntry : Value → Except String Value
  | .dict d =>
    (match dlookup d "name" with
     | some (.str _) => .ok (.dict d)
     | some _ => .error "expected str @ name"
     | none => .error "required key not provided @ name")
  | _ => .error "expected a dictionary"

/-- A `platforms` or `profiles` value: a sequence of named entries. -/
def validateNamedList : Value → Except String Value
  | .list xs => (mapME validateNamedEntry xs).map Value.list
  | _ => .error "expected a list"

/-- The `driver` value schema `{ v.Extra: object }`: any mapping. -/
def validateDriverValue : Value → Except String Value :=
  validateAnyDict

/-- Validation of one top-level binding of the raw document against
`pre_merge_schema`'s keys; any key other than `driver`, `platforms` and
`profiles` passes through unvalidated (`ALLOW_EXTRA`). -/
def preMergeField (kv : String × Value) : Except String (String × Value) :=
  if kv.1 = "driver" then (validateDriverValue kv.2).map (fun w => (kv.1, w))
  else if kv.1 = "platforms" then (validateNamedList kv.2).map (fun w => (kv.1, w))
  else if kv.1 = "profiles" then (validateNamedList kv.2).map (fun w => (kv.1, w))
  else .ok kv

/-- Embeds `pre_merge_schema` (core.py 266–279) applied to a raw document:
`driver` optional (default `{}`), `platforms` required, `profiles` optional
(default `default_profiles`), every entry requiring a string `name`; built
with `extra=ALLOW_EXTRA`, so unrelated keys pass through unvalidated. -/
def pre_merge_schema (doc : Dict) : Except String Dict :=
  match mapME preMergeField doc with
  | .error e => .error e
  | .ok out =>
    if dcontains doc "platforms" = false then
      .error "required key not provided @ platforms"
    else
      .ok (withDefault (withDefault out "driver" (.dict []))
        "profiles" default_profiles)

/-!  The per-instance state record (core.py 100–134).  `write_files` persists
`yaml.safe_dump(dict(id=..., ip=..., keyname=..., platform=...))` and
`load_or_create_instance` reads it back with `yaml.load`.  The YAML codec is
the external `yaml` library; it is modelled here on the shape actually used —
a flat mapping of plain string scalars, emitted as `key: value` lines with
keys in the source's (already alphabetical) order. -/

/-- The emitted character stream of a flat string mapping: one
`key: value\n` line per binding. -/
def dumpFlatCL : List (List Char × List Char) → List Char
  | [] => []
  | (k, v) :: rest => k ++ ':' :: ' ' :: (v ++ '\n' :: dumpFlatCL rest)

/-- Models `yaml.safe_dump` on a flat mapping of plain string scalars. -/
def dumpFlat (l : List (String × String)) : String :=
  String.mk (dumpFlatCL (l.map (fun kv => (kv.1.data, kv.2.data))))

/-- Split the stream into lines at `'\n'`. -/
def splitLinesCL : List Char → List (List Char)
  | [] => []
  | c :: cs =>
    if c = '\n' then [] :: splitLinesCL cs
    else
      match splitLinesCL cs with
      | [] => [[c]]
      | l :: ls => (c :: l) :: ls

/-- Split one `key: value` line at the first `": "`. -/
def splitKV : List Char → Option (List Char × List Char)
  | [] => none
  | c :: rest =>
    if c = ':' ∧ rest.head? = some ' ' then some ([], rest.tail)
    else
      match splitKV rest with
      | none => none
      | some p => some (c :: p.1, p.2)

/-- Parse one line into a key/value pair. -/
def parseLine (cs : List Char) : Option (String × String) :=
  match splitKV cs with
  | none => none
  | some kv => some (String.mk kv.1, String.mk kv.2)

/-- Models `yaml.load` on a document produced from a flat mapping of plain
string scalars. -/
def parseFlat (s : String) : Option (List (String × String)) :=
  mapMO parseLine (splitLinesCL s.data)

/-- Models the state-record serialization of `write_files` (core.py 100–107):
the YAML document holding the four fields `id`, `ip`, `keyname`, `platform`
taken from the created instance, the generated key name and the resolved
configuration. -/
def write_files (id ip keyname platform : String) : String :=
  dumpFlat [("id", id), ("ip", ip), ("keyname", keyname), ("platform", platform)]

/-- Models the load path of `load_or_create_instance` (core.py 124–134):
`yaml.load` of the per-instance state file. -/
def load_or_create_instance (contents : String) : Option (AssocD String) :=
  parseFlat contents

/-!  Concrete data for the spec's worked example (spec §8): driver
`{region: us-east-1}`, a single `centos7` platform, and the implicit default
profile. -/

/-- The example driver mapping `{region: "us-east-1"}`. -/
def c4driver : Dict := [("region", .str "us-east-1")]

/-- The example platform record. -/
def c4platform : Dict :=
  [("name", .str "centos7"), ("image", .str "ami-123"), ("instance_type", .str "t2.micro")]

/-- The record produced for `centos7-default` by `merge_config` on the
example input (computed by evaluation). -/
def c4merged : Dict :=
  [("image", .str "ami-123"), ("instance_type", .str "t2.micro"),
   ("platform", .str "centos7"), ("region", .str "us-east-1"),
   ("extra_vars", .dict []), ("profile", .str "default")]

/-- The example merged record with the driver's `region` key removed. -/
def c4noRegion : Dict :=
  [("image", .str "ami-123"), ("instance_type", .str "t2.micro"),
   ("platform", .str "centos7"), ("extra_vars", .dict []), ("profile", .str "default")]

/-- `c4noRegion` after post-merge validation: the two schema defaults are
appended. -/
def c4validated : Dict :=
  c4noRegion ++ [("username", .str "ec2-user"), ("block_device_mappings", .list [])]

/-!  Lemmas about the dictionary operations. -/

theorem dlookup_dinsert {α : Type} (d : AssocD α) (k k' : String) (v : α) :
    dlookup (dinsert d k v) k' = if k = k' then some v else dlookup d k' := by
  induction d with
  | nil => simp [dinsert, dlookup]
  | cons kv rest ih =>
    obtain ⟨a, b⟩ := kv
    by_cases hak : a = k
    · subst hak
      by_cases hak' : a = k' <;> simp [dinsert, dlookup, hak']
    · by_cases hak' : a = k'
      · subst hak'
        simp [dinsert, dlookup, hak, Ne.symm hak]
      · simp [dinsert, dlookup, hak, hak', ih]

theorem dcontains_iff {α : Type} (d : AssocD α) (k : String) :
    dcontains d k = true ↔ k ∈ d.map Prod.fst := by
  induction d with
  | nil => simp [dcontains, dlookup]
  | cons kv rest ih =>
    obtain ⟨a, b⟩ := kv
    by_cases hak : a = k
    · subst hak
      simp [dcontains, dlookup]
    · simp [dcontains, dlookup, hak]
      rw [← dcontains]
      rw [ih]
      simp [Ne.symm hak]

theorem dcontains_eq_false_iff {α : Type} (d : AssocD α) (k : String) :
    dcontains d k = false ↔ k ∉ d.map Prod.fst := by
  rw [← dcontains_iff]
  simp

theorem dlookup_dupdate_not_mem {α : Type} (d other : AssocD α) (k : String)
    (h : dcontains other k = false) :
    dlookup (dupdate d other) k = dlookup d k := by
  induction other generalizing d with
  | nil => simp [dupdate]
  | cons kv rest ih =>
    obtain ⟨a, b⟩ := kv
    have ha : a ≠ k := by
      intro hak
      subst hak
      simp [dcontains, dlookup] at h
    have hrest : dcontains rest k = false := by
      simp [dcontains, dlookup, ha] at h
      simpa [dcontains] using h
    show dlookup (dupdate (dinsert d a b) rest) k = dlookup d k
    rw [ih (dinsert d a b) hrest, dlookup_dinsert, if_neg ha]

theorem dlookup_dupdate_mem {α : Type} (d other : AssocD α) (k : String)
    (hnd : (other.map Prod.fst).Nodup) (h : dcontains other k = true) :
    dlookup (dupdate d other) k = dlookup other k := by
  induction other generalizing d with
  | nil => simp [dcontains, dlookup] at h
  | cons kv rest ih =>
    obtain ⟨a, b⟩ := kv
    simp only [List.map_cons, List.nodup_cons] at hnd
    by_cases hak : a = k
    · subst hak
      have hrest : dcontains rest a = false := by
        rw [dcontains_eq_false_iff]
        exact hnd.1
      show dlookup (dupdate (dinsert d a b) rest) a = dlookup ((a, b) :: rest) a
      rw [dlookup_dupdate_not_mem (dinsert d a b) rest a hrest, dlookup_dinsert]
      simp [dlookup]
    · have hrest : dcontains rest k = true := by
        simp [dcontains, dlookup, hak] at h
        simpa [dcontains] using h
      show dlookup (dupdate (dinsert d a b) rest) k = dlookup ((a, b) :: rest) k
      rw [ih (dinsert d a b) hnd.2 hrest]
      simp [dlookup, hak]

theorem filterKeys_cons {α : Type} (a : String) (b : α) (rest : AssocD α) (p : String → Bool) :
    filterKeys ((a, b) :: rest) p
      = if p a then (a, b) :: filterKeys rest p else filterKeys rest p := by
  by_cases hp : p a <;> simp [filterKeys, List.filter_cons, hp]

theorem dlookup_filterKeys {α : Type} (d : AssocD α) (p : String → Bool) (k : String) :
    dlookup (filterKeys d p) k = if p k then dlookup d k else none := by
  induction d with
  | nil => simp [filterKeys, dlookup]
  | cons kv rest ih =>
    obtain ⟨a, b⟩ := kv
    rw [filterKeys_cons]
    by_cases hp : p a
    · by_cases hak : a = k
      · subst hak
        simp [hp, dlookup]
      · simp [hp, dlookup, hak, ih]
    · by_cases hak : a = k
      · subst hak
        simp [hp, dlookup, ih]
      · simp [hp, dlookup, hak, ih]

theorem dcontains_filterKeys {α : Type} (d : AssocD α) (p : String → Bool) (k : String) :
    dcontains (filterKeys d p) k = (p k && dcontains d k) := by
  rw [dcontains, dlookup_filterKeys]
  by_cases hp : p k <;> simp [hp, dcontains]

theorem dinsert_eq_append {α : Type} (d : AssocD α) (k : String) (v : α)
    (h : dcontains d k = false) :
    dinsert d k v = d ++ [(k, v)] := by
  induction d with
  | nil => simp [dinsert]
  | cons kv rest ih =>
    obtain ⟨a, b⟩ := kv
    have ha : a ≠ k := by
      intro hak
      subst hak
      simp [dcontains, dlookup] at h
    have hrest : dcontains rest k = false := by
      simp [dcontains, dlookup, ha] at h
      simpa [dcontains] using h
    simp [dinsert, ha, ih hrest]

theorem foldl_dinsert_eq_append {α : Type} (pairs acc : AssocD α)
    (h : ((acc ++ pairs).map Prod.fst).Nodup) :
    pairs.foldl (fun a kv => dinsert a kv.1 kv.2) acc = acc ++ pairs := by
  induction pairs generalizing acc with
  | nil => simp
  | cons kv rest ih =>
    obtain ⟨k, v⟩ := kv
    have hmem : k ∉ acc.map Prod.fst := by
      intro hk
      have := h
      rw [List.map_append, List.nodup_append] at this
      exact this.2.2 hk (by simp)
    have hacc : dcontains acc k = false := (dcontains_eq_false_iff acc k).2 hmem
    have hshape : acc ++ (k, v) :: rest = (acc ++ [(k, v)]) ++ rest := by
      simp
    rw [List.foldl_cons, dinsert_eq_append acc k v hacc, ih (acc ++ [(k, v)]) (by rw [← hshape]; exact h), hshape]

/-!  Lemmas about the structure of `merge_config`'s output. -/

theorem rowFor_spec (driver p : Dict) (profiles : List Dict) (n : String)
    (qnames : List String) (hp : getName p = some n)
    (hq : mapMO getName profiles = some qnames) :
    ∃ row, rowFor driver p profiles = some row
      ∧ row.map Prod.fst = qnames.map (fun q => n ++ "-" ++ q)
      ∧ row.length = profiles.length
      ∧ ∀ kv, kv ∈ row → ∃ q qn, q ∈ profiles ∧ getName q = some qn
          ∧ kv = (n ++ "-" ++ qn, mergeEntry driver p q n qn) := by
  induction profiles generalizing qnames with
  | nil =>
    simp [mapMO] at hq
    subst hq
    exact ⟨[], rfl, by simp, by simp, by simp⟩
  | cons q qs ih =>
    rw [mapMO] at hq
    cases hq0 : getName q with
    | none => rw [hq0] at hq; exact absurd hq (by simp)
    | some qn =>
      rw [hq0] at hq
      cases hqs : mapMO getName qs with
      | none => rw [hqs] at hq; exact absurd hq (by simp)
      | some qns =>
        rw [hqs] at hq
        simp at hq
        subst hq
        obtain ⟨row, hrow, hkeys, hlen, hmem⟩ := ih qns hqs
        refine ⟨(n ++ "-" ++ qn, mergeEntry driver p q n qn) :: row, ?_, ?_, ?_, ?_⟩
        · have he : entryFor driver p q = some (n ++ "-" ++ qn, mergeEntry driver p q n qn) := by
            simp [entryFor, hp, hq0]
          have hrow' : mapMO (fun q => entryFor driver p q) qs = some row := hrow
          show mapMO (fun q => entryFor driver p q) (q :: qs) = _
          rw [mapMO, he, hrow']
        · simp [hkeys]
        · simp [hlen]
        · intro kv hkv
          rcases List.mem_cons.1 hkv with h1 | h2
          · exact ⟨q, qn, by simp, hq0, h1⟩
          · obtain ⟨q', qn', hq', hgn', hkv'⟩ := hmem kv h2
            exact ⟨q', qn', by simp [hq'], hgn', hkv'⟩

/-- The concatenation of the per-platform keys, in iteration order. -/
def allKeys (pnames qnames : List String) : List String :=
  pnames.flatMap (fun p => qnames.map (fun q => p ++ "-" ++ q))

theorem mergePairs_spec (driver : Dict) (platforms profiles : List Dict)
    (pnames qnames : List String)
    (hp : mapMO getName platforms = some pnames)
    (hq : mapMO getName profiles = some qnames) :
    ∃ pairs, mergePairs driver platforms profiles = some pairs
      ∧ pairs.map Prod.fst = allKeys pnames qnames
      ∧ pairs.length = platforms.length * profiles.length
      ∧ ∀ kv, kv ∈ pairs → ∃ p q pn qn, p ∈ platforms ∧ q ∈ profiles
          ∧ getName p = some pn ∧ getName q = some qn
          ∧ kv = (pn ++ "-" ++ qn, mergeEntry driver p q pn qn) := by
  induction platforms generalizing pnames with
  | nil =>
    simp [mapMO] at hp
    subst hp
    exact ⟨[], rfl, by simp [allKeys], by simp, by simp⟩
  | cons p ps ih =>
    rw [mapMO] at hp
    cases hp0 : getName p with
    | none => rw [hp0] at hp; exact absurd hp (by simp)
    | some n =>
      rw [hp0] at hp
      cases hps : mapMO getName ps with
      | none => rw [hps] at hp; exact absurd hp (by simp)
      | some ns =>
        rw [hps] at hp
        simp at hp
        subst hp
        obtain ⟨row, hrow, hrkeys, hrlen, hrmem⟩ := rowFor_spec driver p profiles n qnames hp0 hq
        obtain ⟨rest, hrest, hkeys, hlen, hmem⟩ := ih ns hps
        refine ⟨row ++ rest, ?_, ?_, ?_, ?_⟩
        · rw [mergePairs, hrow, hrest]
        · simp [hrkeys, hkeys, allKeys]
        · simp [hrlen, hlen, Nat.succ_mul, Nat.add_comm]
        · intro kv hkv
          rcases List.mem_append.1 hkv with h1 | h2
          · obtain ⟨q, qn, hqm, hgn, hkv'⟩ := hrmem kv h1
            exact ⟨p, q, n, qn, by simp, hqm, hp0, hgn, hkv'⟩
          · obtain ⟨p', q', pn', qn', hpm, hqm, hgp, hgq, hkv'⟩ := hmem kv h2
            exact ⟨p', q', pn', qn', by simp [hpm], hqm, hgp, hgq, hkv'⟩

theorem merge_config_spec (driver : Dict) (platforms profiles : List Dict)
    (pnames qnames : List String)
    (hp : mapMO getName platforms = some pnames)
    (hq : mapMO getName profiles = some qnames)
    (hnd : (allKeys pnames qnames).Nodup) :
    ∃ m, merge_config driver platforms profiles = some m
      ∧ m.map Prod.fst = allKeys pnames qnames
      ∧ m.length = platforms.length * profiles.length
      ∧ ∀ kv, kv ∈ m → ∃ p q pn qn, p ∈ platforms ∧ q ∈ profiles
          ∧ getName p = some pn ∧ getName q = some qn
          ∧ kv = (pn ++ "-" ++ qn, mergeEntry driver p q pn qn) := by
  obtain ⟨pairs, hpairs, hkeys, hlen, hmem⟩ :=
    mergePairs_spec driver platforms profiles pnames qnames hp hq
  have hfold : pairs.foldl (fun acc kv => dinsert acc kv.1 kv.2) [] = pairs := by
    have := foldl_dinsert_eq_append pairs [] (by simpa [hkeys] using hnd)
    simpa using this
  refine ⟨pairs, ?_, hkeys, hlen, hmem⟩
  rw [merge_config, hpairs]
  show some (pairs.foldl (fun acc kv => dinsert acc kv.1 kv.2) []) = some pairs
  rw [hfold]

/-!  Lemmas about the fields of one merged record. -/

theorem map_fst_filterKeys {α : Type} (d : AssocD α) (p : String → Bool) :
    (filterKeys d p).map Prod.fst = (d.map Prod.fst).filter p := by
  induction d with
  | nil => simp [filterKeys]
  | cons kv rest ih =>
    obtain ⟨a, b⟩ := kv
    rw [filterKeys_cons]
    by_cases hp : p a <;> simp [hp, List.filter_cons, ih]

/-- The `profile` field of every merged record is the literal profile name:
it is assigned last (core.py 240). -/
theorem mergeEntry_profile (driver platform profile : Dict) (pn qn : String) :
    dlookup (mergeEntry driver platform profile pn qn) "profile" = some (.str qn) := by
  rw [mergeEntry, dlookup_dinsert, if_pos rfl]

/-- Any key present in the profile record other than `name` and `profile`
resolves to the profile's value, regardless of driver and platform. -/
theorem mergeEntry_profile_wins (driver platform profile : Dict) (pn qn k : String)
    (hnd : (profile.map Prod.fst).Nodup)
    (hk1 : k ≠ "name") (hk2 : k ≠ "profile")
    (hmem : dcontains profile k = true) :
    dlookup (mergeEntry driver platform profile pn qn) k = dlookup profile k := by
  have hfnd : ((filterKeys profile (fun a => a != "name")).map Prod.fst).Nodup := by
    rw [map_fst_filterKeys]
    exact hnd.filter _
  have hfmem : dcontains (filterKeys profile (fun a => a != "name")) k = true := by
    rw [dcontains_filterKeys]
    simp [hmem, hk1]
  rw [mergeEntry, dlookup_dinsert, if_neg (Ne.symm hk2),
    dlookup_dupdate_mem _ _ _ hfnd hfmem, dlookup_filterKeys]
  simp [hk1]

/-- Any key present in the platform record and absent from the profile record,
other than `platform` and `profile`, resolves to the platform's value: the
driver never overrides a platform-declared key (core.py 234–236). -/
theorem mergeEntry_platform_wins (driver platform profile : Dict) (pn qn k : String)
    (hk0 : k ≠ "name") (hk1 : k ≠ "platform") (hk2 : k ≠ "profile")
    (hpl : dcontains platform k = true) (hpr : dcontains profile k = false) :
    dlookup (mergeEntry driver platform profile pn qn) k = dlookup platform k := by
  have hprof : dcontains (filterKeys profile (fun a => a != "name")) k = false := by
    rw [dcontains_filterKeys, hpr]
    simp
  have hdrv : dcontains (filterKeys driver (fun a => !(dcontains platform a))) k = false := by
    rw [dcontains_filterKeys, hpl]
    simp
  rw [mergeEntry, dlookup_dinsert, if_neg (Ne.symm hk2),
    dlookup_dupdate_not_mem _ _ _ hprof, dlookup_dupdate_not_mem _ _ _ hdrv,
    dlookup_dinsert, if_neg (Ne.symm hk1), dlookup_filterKeys]
  simp [hk0]

/-- The `platform` field equals the literal platform name as long as neither
the profile nor the driver (for a key absent from the platform record)
supplies a `platform` key: the literal assignment happens before the driver
and profile updates (core.py 233). -/
theorem mergeEntry_platform_literal (driver platform profile : Dict) (pn qn : String)
    (hpr : dcontains profile "platform" = false)
    (hd : dcontains platform "platform" = true ∨ dcontains driver "platform" = false) :
    dlookup (mergeEntry driver platform profile pn qn) "platform" = some (.str pn) := by
  have hprof : dcontains (filterKeys profile (fun a => a != "name")) "platform" = false := by
    rw [dcontains_filterKeys, hpr]
    simp
  have hdrv : dcontains (filterKeys driver (fun a => !(dcontains platform a))) "platform" = false := by
    rw [dcontains_filterKeys]
    rcases hd with h | h <;> simp [h]
  rw [mergeEntry, dlookup_dinsert, if_neg (by decide : ("profile" : String) ≠ "platform"),
    dlookup_dupdate_not_mem _ _ _ hprof, dlookup_dupdate_not_mem _ _ _ hdrv,
    dlookup_dinsert, if_pos rfl]

/-- Merging against the implicit default profile leaves `extra_vars` equal to
the empty mapping in every record. -/
theorem mergeEntry_default_extra_vars (driver platform : Dict) (pn : String) :
    dlookup (mergeEntry driver platform default_profile pn "default") "extra_vars"
      = some (.dict []) := by
  have hprof : filterKeys default_profile (fun a => a != "name")
      = [("extra_vars", Value.dict [])] := rfl
  rw [mergeEntry, dlookup_dinsert, if_neg (by decide : ("profile" : String) ≠ "extra_vars"), hprof]
  show dlookup (dinsert _ "extra_vars" (Value.dict [])) "extra_vars" = some (Value.dict [])
  rw [dlookup_dinsert, if_pos rfl]

/-!  Lemmas about the validating traversals. -/

theorem mapME_isOk_false_of_mem {α β : Type} (f : α → Except String β) (l : List α)
    (x : α) (hx : x ∈ l) (hf : (f x).isOk = false) :
    (mapME f l).isOk = false := by
  induction l with
  | nil => simp at hx
  | cons y ys ih =>
    rcases List.mem_cons.1 hx with h1 | h2
    · subst h1
      rw [mapME]
      cases hfy : f x with
      | error e => rfl
      | ok b => rw [hfy] at hf; simp [Except.isOk, Except.toBool] at hf
    · rw [mapME]
      cases hfy : f y with
      | error e => rfl
      | ok b =>
        have := ih h2
        cases hys : mapME f ys with
        | error e => rfl
        | ok bs => rw [hys] at this; simp [Except.isOk, Except.toBool] at this

theorem mapME_keys_eq (f : String × Value → Except String (String × Value))
    (hf : ∀ kv out, f kv = .ok out → out.1 = kv.1)
    (l out : Dict) (h : mapME f l = .ok out) :
    out.map Prod.fst = l.map Prod.fst := by
  induction l generalizing out with
  | nil =>
    rw [mapME] at h
    cases h
    simp
  | cons kv rest ih =>
    rw [mapME] at h
    cases hkv : f kv with
    | error e => rw [hkv] at h; cases h
    | ok y =>
      rw [hkv] at h
      cases hrest : mapME f rest with
      | error e => rw [hrest] at h; cases h
      | ok ys =>
        rw [hrest] at h
        cases h
        simp [hf kv y hkv, ih ys hrest]

theorem preMergeField_key (kv out : String × Value) (h : preMergeField kv = .ok out) :
    out.1 = kv.1 := by
  rw [preMergeField] at h
  by_cases h1 : kv.1 = "driver"
  · rw [if_pos h1] at h
    cases hv : validateDriverValue kv.2 with
    | error e => rw [hv] at h; cases h
    | ok w => rw [hv] at h; cases h; rfl
  · rw [if_neg h1] at h
    by_cases h2 : kv.1 = "platforms"
    · rw [if_pos h2] at h
      cases hv : validateNamedList kv.2 with
      | error e => rw [hv] at h; cases h
      | ok w => rw [hv] at h; cases h; rfl
    · rw [if_neg h2] at h
      by_cases h3 : kv.1 = "profiles"
      · rw [if_pos h3] at h
        cases hv : validateNamedList kv.2 with
        | error e => rw [hv] at h; cases h
        | ok w => rw [hv] at h; cases h; rfl
      · rw [if_neg h3] at h
        cases h
        rfl

theorem dcontains_withDefault_other (d : AssocD Value) (k k' : String) (v : Value)
    (hne : k ≠ k') :
    dcontains (withDefault d k' v) k = dcontains d k := by
  rw [withDefault]
  by_cases hc : dcontains d k'
  · rw [if_pos hc]
  · rw [if_neg hc, dcontains, dlookup_dinsert, if_neg (Ne.symm hne), dcontains]

theorem dlookup_withDefault_absent (d : AssocD Value) (k : String) (v : Value)
    (h : dcontains d k = false) :
    dlookup (withDefault d k v) k = some v := by
  rw [withDefault, if_neg (by simp [h]), dlookup_dinsert, if_pos rfl]

/-- When the raw document has no `profiles` key, `pre_merge_schema` supplies
`default_profiles` (core.py 276). -/
theorem pre_merge_schema_default_profiles (doc out : Dict)
    (h : pre_merge_schema doc = .ok out)
    (hnp : dcontains doc "profiles" = false) :
    dlookup out "profiles" = some default_profiles := by
  rw [pre_merge_schema] at h
  cases hm : mapME preMergeField doc with
  | error e => rw [hm] at h; exact absurd h (by simp)
  | ok out0 =>
    rw [hm] at h
    have h' : (if dcontains doc "platforms" = false then
        (Except.error "required key not provided @ platforms" : Except String Dict)
      else Except.ok (withDefault (withDefault out0 "driver" (.dict []))
        "profiles" default_profiles)) = Except.ok out := h
    by_cases hplat : dcontains doc "platforms" = false
    · rw [if_pos hplat] at h'
      exact absurd h' (by simp)
    · rw [if_neg hplat] at h'
      have hout : withDefault (withDefault out0 "driver" (.dict []))
          "profiles" default_profiles = out := by
        cases h'
        rfl
      have hkeys : out0.map Prod.fst = doc.map Prod.fst :=
        mapME_keys_eq preMergeField preMergeField_key doc out0 hm
      have hnp0 : dcontains out0 "profiles" = false := by
        rw [dcontains_eq_false_iff, hkeys]
        exact (dcontains_eq_false_iff doc "profiles").1 hnp
      have hnp1 : dcontains (withDefault out0 "driver" (.dict [])) "profiles" = false := by
        rw [dcontains_withDefault_other _ _ _ _ (by decide)]
        exact hnp0
      rw [← hout]
      exact dlookup_withDefault_absent _ _ _ hnp1

/-!  Lemmas for the state-record round trip. -/

theorem splitLinesCL_append (a b : List Char) (ha : '\n' ∉ a) :
    splitLinesCL (a ++ '\n' :: b) = a :: splitLinesCL b := by
  induction a with
  | nil => simp [splitLinesCL]
  | cons c cs ih =>
    have hc : c ≠ '\n' := by
      intro h
      exact ha (by simp [h])
    have hcs : '\n' ∉ cs := fun h => ha (by simp [h])
    rw [List.cons_append, splitLinesCL, if_neg hc, ih hcs]

theorem splitKV_append (k v : List Char) (hk : ':' ∉ k) :
    splitKV (k ++ ':' :: ' ' :: v) = some (k, v) := by
  induction k with
  | nil =>
    rw [List.nil_append]
    simp [splitKV]
  | cons c cs ih =>
    have hc : c ≠ ':' := by
      intro h
      exact hk (by simp [h])
    have hcs : ':' ∉ cs := fun h => hk (by simp [h])
    rw [List.cons_append, splitKV, if_neg (by simp [hc]), ih hcs]

theorem parseFlat_dumpFlat (l : List (String × String))
    (h : ∀ k v, (k, v) ∈ l → ':' ∉ k.data ∧ '\n' ∉ k.data ∧ '\n' ∉ v.data) :
    parseFlat (dumpFlat l) = some l := by
  rw [parseFlat, dumpFlat]
  show mapMO parseLine (splitLinesCL (dumpFlatCL (l.map (fun kv => (kv.1.data, kv.2.data))))) = some l
  induction l with
  | nil => rfl
  | cons kv rest ih =>
    obtain ⟨ks, vs⟩ := kv
    obtain ⟨hk, hkn, hvn⟩ := h ks vs (by simp)
    have hnl : '\n' ∉ ks.data ++ ':' :: ' ' :: vs.data := by
      simp [hkn, hvn]
    rw [List.map_cons, dumpFlatCL]
    rw [show ks.data ++ ':' :: ' ' :: (vs.data ++ '\n'
          :: dumpFlatCL (rest.map (fun kv => (kv.1.data, kv.2.data))))
        = (ks.data ++ ':' :: ' ' :: vs.data)
          ++ '\n' :: dumpFlatCL (rest.map (fun kv => (kv.1.data, kv.2.data))) by simp]
    rw [splitLinesCL_append _ _ hnl, mapMO, parseLine, splitKV_append _ _ hk]
    rw [ih (fun k v hkv => h k v (by simp [hkv]))]

/-- Appending a fixed suffix to a string is injective (used for the
uniqueness of `<name>-default` instance keys). -/
theorem append_left_inj (s n1 n2 : String) (h : n1 ++ s = n2 ++ s) : n1 = n2 := by
  have hd : n1.data ++ s.data = n2.data ++ s.data := by
    rw [← String.data_append, ← String.data_append, h]
  have := List.append_cancel_right hd
  cases n1; cases n2
  exact congrArg String.mk this

/-- `allKeys` against a single profile name is a plain map. -/
theorem allKeys_singleton (names : List String) (q : String) :
    allKeys names [q] = names.map (fun p => p ++ "-" ++ q) := by
  induction names with
  | nil => rfl
  | cons n ns ih => simp [allKeys] at ih ⊢; exact ih

/-- A record with a name contains the key `name`. -/
theorem getName_dcontains (d : Dict) (n : String) (h : getName d = some n) :
    dcontains d "name" = true := by
  rw [getName] at h
  rw [dcontains]
  cases hl : dlookup d "name" with
  | none => rw [hl] at h; simp at h
  | some v => simp [hl]

/-- `merge_config` on a single platform and a single profile produces exactly
the one merged record under the composed instance key. -/
theorem merge_config_singleton (driver platform profile : Dict) (pn qn : String)
    (hp : getName platform = some pn) (hq : getName profile = some qn) :
    merge_config driver [platform] [profile]
      = some [(pn ++ "-" ++ qn, mergeEntry driver platform profile pn qn)] := by
  simp [merge_config, mergePairs, rowFor, mapMO, entryFor, hp, hq, dinsert]

/-!  The claims. -/

/-- C1 (counterexample): the claim "any key present in both the platform and
the profile yields the profile's value" fails for the key `profile`: with
platform `{name: p, profile: x}` and profile `{name: q, profile: y}`, the key
`profile` is present in both records, yet the resolved record maps it to the
literal profile name `q`, not the profile record's value `y`. -/
theorem C1_counterexample :
    dcontains [("name", Value.str "p"), ("profile", Value.str "x")] "profile" = true
  ∧ dcontains [("name", Value.str "q"), ("profile", Value.str "y")] "profile" = true
  ∧ merge_config [] [[("name", Value.str "p"), ("profile", Value.str "x")]]
      [[("name", Value.str "q"), ("profile", Value.str "y")]]
      = some [("p-q", [("profile", Value.str "q"), ("platform", Value.str "p")])]
  ∧ dlookup [("profile", Value.str "q"), ("platform", Value.str "p")] "profile"
      = some (Value.str "q")
  ∧ dlookup [("name", Value.str "q"), ("profile", Value.str "y")] "profile"
      = some (Value.str "y")
  ∧ "q" ≠ "y" :=
  ⟨rfl, rfl, rfl, rfl, rfl, by decide⟩

/-- C1 (amended): merge precedence, lowest to highest, is driver defaults <
platform fields < profile fields, for every key other than the bookkeeping
keys: a key other than `name` and `profile` present in both the platform and
the profile resolves to the profile's value; and a key other than `name`,
`platform` and `profile` present in the platform and absent from the profile
resolves to the platform's value — the driver never overrides a
platform-declared key. -/
theorem C1_merge_precedence_amended (driver platform profile : Dict) (pn qn k : String)
    (hp : getName platform = some pn) (hq : getName profile = some qn)
    (hnd : (profile.map Prod.fst).Nodup) :
    merge_config driver [platform] [profile]
      = some [(pn ++ "-" ++ qn, mergeEntry driver platform profile pn qn)]
  ∧ (k ≠ "name" → k ≠ "profile" →
      dcontains platform k = true → dcontains profile k = true →
      dlookup (mergeEntry driver platform profile pn qn) k = dlookup profile k)
  ∧ (k ≠ "platform" → k ≠ "profile" →
      dcontains platform k = true → dcontains profile k = false →
      dlookup (mergeEntry driver platform profile pn qn) k = dlookup platform k) := by
  refine ⟨merge_config_singleton driver platform profile pn qn hp hq, ?_, ?_⟩
  · intro h1 h2 h3 h4
    exact mergeEntry_profile_wins driver platform profile pn qn k hnd h1 h2 h4
  · intro h1 h2 h3 h4
    have hname : k ≠ "name" := by
      intro hk
      subst hk
      rw [getName_dcontains profile qn hq] at h4
      cases h4
    exact mergeEntry_platform_wins driver platform profile pn qn k hname h1 h2 h3 h4

/-- C1 (witness): at driver `{}`, platform `{name: p, image: i1, foo: f}`,
profile `{name: q, image: i2}`, the shared key `image` resolves to the
profile's value and the platform-only key `foo` resolves to the platform's
value. -/
theorem C1_witness :
    dlookup (mergeEntry [] [("name", Value.str "p"), ("image", Value.str "i1"), ("foo", Value.str "f")]
        [("name", Value.str "q"), ("image", Value.str "i2")] "p" "q") "image"
      = dlookup [("name", Value.str "q"), ("image", Value.str "i2")] "image"
  ∧ dlookup (mergeEntry [] [("name", Value.str "p"), ("image", Value.str "i1"), ("foo", Value.str "f")]
        [("name", Value.str "q"), ("image", Value.str "i2")] "p" "q") "foo"
      = dlookup [("name", Value.str "p"), ("image", Value.str "i1"), ("foo", Value.str "f")] "foo" :=
  ⟨(C1_merge_precedence_amended []
      [("name", Value.str "p"), ("image", Value.str "i1"), ("foo", Value.str "f")]
      [("name", Value.str "q"), ("image", Value.str "i2")] "p" "q" "image"
      rfl rfl (by decide)).2.1 (by decide) (by decide) rfl rfl,
   (C1_merge_precedence_amended []
      [("name", Value.str "p"), ("image", Value.str "i1"), ("foo", Value.str "f")]
      [("name", Value.str "q"), ("image", Value.str "i2")] "p" "q" "foo"
      rfl rfl (by decide)).2.2 (by decide) (by decide) rfl rfl⟩

/-- C2 (counterexample): the resolved `platform` field is not always the
literal platform name: with driver `{platform: X}` and platform `{name: p}`,
the driver's `platform` key is not present in the platform record, so the
driver update (which runs after the literal assignment, core.py 233–236)
overwrites the literal name `p` with `X`. -/
theorem C2_counterexample :
    merge_config [("platform", Value.str "X")] [[("name", Value.str "p")]]
      [[("name", Value.str "q")]]
      = some [("p-q", [("platform", Value.str "X"), ("profile", Value.str "q")])]
  ∧ dlookup [("platform", Value.str "X"), ("profile", Value.str "q")] "platform"
      = some (Value.str "X")
  ∧ "X" ≠ "p" :=
  ⟨rfl, rfl, by decide⟩

/-- C2 (amended): the `profile` field of every resolved record always equals
the literal profile name (it is assigned last).  The `platform` field equals
the literal platform name provided no overlay reintroduces the key after the
literal assignment: whenever the profile record has no `platform` key, and
either the platform record itself declares `platform` or the driver does not,
the resolved `platform` is the literal platform name. -/
theorem C2_literal_fields_amended (driver platform profile : Dict) (pn qn : String)
    (hp : getName platform = some pn) (hq : getName profile = some qn) :
    merge_config driver [platform] [profile]
      = some [(pn ++ "-" ++ qn, mergeEntry driver platform profile pn qn)]
  ∧ dlookup (mergeEntry driver platform profile pn qn) "profile" = some (.str qn)
  ∧ (dcontains profile "platform" = false →
      (dcontains platform "platform" = true ∨ dcontains driver "platform" = false) →
      dlookup (mergeEntry driver platform profile pn qn) "platform" = some (.str pn)) := by
  refine ⟨merge_config_singleton driver platform profile pn qn hp hq,
    mergeEntry_profile driver platform profile pn qn, ?_⟩
  intro h1 h2
  exact mergeEntry_platform_literal driver platform profile pn qn h1 h2

/-- C2 (witness): at driver `{region: r}`, platform `{name: p}`, profile
`{name: q}`, the resolved record has `profile = q` and `platform = p`. -/
theorem C2_witness :
    merge_config [("region", Value.str "r")] [[("name", Value.str "p")]]
      [[("name", Value.str "q")]]
      = some [("p-q", mergeEntry [("region", Value.str "r")] [("name", Value.str "p")]
          [("name", Value.str "q")] "p" "q")]
  ∧ dlookup (mergeEntry [("region", Value.str "r")] [("name", Value.str "p")]
      [("name", Value.str "q")] "p" "q") "profile" = some (.str "q")
  ∧ (dcontains [("name", Value.str "q")] "platform" = false →
      (dcontains [("name", Value.str "p")] "platform" = true
        ∨ dcontains [("region", Value.str "r")] "platform" = false) →
      dlookup (mergeEntry [("region", Value.str "r")] [("name", Value.str "p")]
        [("name", Value.str "q")] "p" "q") "platform" = some (.str "p")) :=
  C2_literal_fields_amended [("region", Value.str "r")] [("name", Value.str "p")]
    [("name", Value.str "q")] "p" "q" rfl rfl

/-- C3 (counterexample): with the two distinct platform names `a`, `a-b` and
the two distinct profile names `b-c`, `c`, the composed keys collide
(`a ++ "-" ++ "b-c" = "a-b" ++ "-" ++ "c"`), so the merged result holds 3
entries, not N×M = 4. -/
theorem C3_counterexample :
    mapMO getName [[("name", Value.str "a")], [("name", Value.str "a-b")]]
      = some ["a", "a-b"]
  ∧ mapMO getName [[("name", Value.str "b-c")], [("name", Value.str "c")]]
      = some ["b-c", "c"]
  ∧ (["a", "a-b"] : List String).Nodup
  ∧ (["b-c", "c"] : List String).Nodup
  ∧ merge_config [] [[("name", Value.str "a")], [("name", Value.str "a-b")]]
      [[("name", Value.str "b-c")], [("name", Value.str "c")]]
      = some [("a-b-c", [("platform", Value.str "a-b"), ("profile", Value.str "c")]),
              ("a-c", [("platform", Value.str "a"), ("profile", Value.str "c")]),
              ("a-b-b-c", [("platform", Value.str "a-b"), ("profile", Value.str "b-c")])]
  ∧ (3 : Nat) ≠ 2 * 2 :=
  ⟨rfl, rfl, by decide, by decide, rfl, by decide⟩

/-- C3 (amended): for every input whose platforms and profiles all carry
string names, provided the N×M composed instance keys
`"<platform.name>-<profile.name>"` are pairwise distinct (distinct platform
and profile names alone do not guarantee this when names contain `-`),
`merge_config` returns exactly N×M entries, whose keys are exactly the
composed strings over the cartesian product, in iteration order. -/
theorem C3_cartesian_size_amended (driver : Dict) (platforms profiles : List Dict)
    (pnames qnames : List String)
    (hp : mapMO getName platforms = some pnames)
    (hq : mapMO getName profiles = some qnames)
    (hnd : (allKeys pnames qnames).Nodup) :
    ∃ m, merge_config driver platforms profiles = some m
      ∧ m.map Prod.fst = allKeys pnames qnames
      ∧ m.length = platforms.length * profiles.length := by
  obtain ⟨m, h1, h2, h3, h4⟩ :=
    merge_config_spec driver platforms profiles pnames qnames hp hq hnd
  exact ⟨m, h1, h2, h3⟩

/-- C3 (witness): two hyphen-free platforms `web`, `db` and two profiles
`dev`, `prod` merge to exactly 2×2 entries keyed by the four composed
strings. -/
theorem C3_witness :
    ∃ m, merge_config [] [[("name", Value.str "web")], [("name", Value.str "db")]]
        [[("name", Value.str "dev")], [("name", Value.str "prod")]] = some m
      ∧ m.map Prod.fst = allKeys ["web", "db"] ["dev", "prod"]
      ∧ m.length = ([[("name", Value.str "web")], [("name", Value.str "db")]] : List Dict).length
          * ([[("name", Value.str "dev")], [("name", Value.str "prod")]] : List Dict).length :=
  C3_cartesian_size_amended [] [[("name", Value.str "web")], [("name", Value.str "db")]]
    [[("name", Value.str "dev")], [("name", Value.str "prod")]]
    ["web", "db"] ["dev", "prod"] rfl rfl (by decide)

/-- C4 (counterexample): merging driver `{region: us-east-1}` with the single
platform `centos7` and the implicit default profile yields the one record
`c4merged` under key `centos7-default` — but applying post-merge validation
to it fails (the schema admits no `region` key), so the claim's validated
record with `region`, `username` and `block_device_mappings` never exists. -/
theorem C4_counterexample :
    merge_config c4driver [c4platform] [default_profile]
      = some [("centos7-default", c4merged)]
  ∧ dlookup c4merged "region" = some (.str "us-east-1")
  ∧ (post_merge_schema [("centos7-default", c4merged)]).isOk = false :=
  ⟨rfl, rfl, rfl⟩

/-- C4 (amended): on the spec's example input, merging yields exactly one
record under key `centos7-default` containing `region: us-east-1`,
`image: ami-123` and `instance_type: t2.micro`; post-merge validation rejects
that record because `region` is not among the schema's keys; on the same
record with `region` removed, validation succeeds and supplies the defaults
`username: ec2-user` and `block_device_mappings: []`. -/
theorem C4_example_amended :
    merge_config c4driver [c4platform] [default_profile]
      = some [("centos7-default", c4merged)]
  ∧ dlookup c4merged "region" = some (.str "us-east-1")
  ∧ dlookup c4merged "image" = some (.str "ami-123")
  ∧ dlookup c4merged "instance_type" = some (.str "t2.micro")
  ∧ (post_merge_schema [("centos7-default", c4merged)]).isOk = false
  ∧ post_merge_schema [("centos7-default", c4noRegion)]
      = .ok [("centos7-default", c4validated)]
  ∧ dlookup c4validated "username" = some (.str "ec2-user")
  ∧ dlookup c4validated "block_device_mappings" = some (.list []) :=
  ⟨rfl, rfl, rfl, rfl, rfl, rfl, rfl, rfl⟩

/-- C5: for every raw document without a `profiles` key that passes pre-merge
validation, the validated output carries the implicit profile list
`[{name: default, extra_vars: {}}]`; merging any driver and the document's
platforms (with pairwise-distinct names, as the data model requires of name
keys) against that single implicit profile yields exactly one entry per
platform, each with `profile = "default"` and `extra_vars = {}`. -/
theorem C5_default_profile (doc out driver : Dict) (ps : List Dict) (names : List String)
    (h1 : pre_merge_schema doc = .ok out)
    (h2 : dcontains doc "profiles" = false)
    (h3 : dlookup out "platforms" = some (.list (ps.map Value.dict)))
    (h4 : mapMO getName ps = some names)
    (h5 : names.Nodup) :
    dlookup out "profiles" = some default_profiles
  ∧ ∃ m, merge_config driver ps [default_profile] = some m
      ∧ m.length = ps.length
      ∧ ∀ kv, kv ∈ m → dlookup kv.2 "profile" = some (Value.str "default")
          ∧ dlookup kv.2 "extra_vars" = some (Value.dict []) := by
  refine ⟨pre_merge_schema_default_profiles doc out h1 h2, ?_⟩
  have hq : mapMO getName [default_profile] = some ["default"] := rfl
  have hkeys : allKeys names ["default"] = names.map (fun p => p ++ "-" ++ "default") :=
    allKeys_singleton names "default"
  have hinj : Function.Injective (fun p => p ++ "-" ++ "default") := by
    intro a b hab
    simp only at hab
    have h1 : (a ++ "-") ++ "default" = (b ++ "-") ++ "default" := by
      simpa [String.append_assoc] using hab
    have h2 := append_left_inj "default" (a ++ "-") (b ++ "-") h1
    exact append_left_inj "-" a b h2
  have hnd : (allKeys names ["default"]).Nodup := by
    rw [hkeys]
    exact h5.map hinj
  obtain ⟨m, hm1, hm2, hm3, hm4⟩ :=
    merge_config_spec driver ps [default_profile] names ["default"] h4 hq hnd
  refine ⟨m, hm1, by simpa using hm3, ?_⟩
  intro kv hkv
  obtain ⟨p, q, pn, qn, hpm, hqm, hgp, hgq, hkv'⟩ := hm4 kv hkv
  have hqd : q = default_profile := by simpa using hqm
  subst hqd
  have hqn : qn = "default" := by
    have : getName default_profile = some "default" := rfl
    rw [this] at hgq
    exact (Option.some.injEq _ _ ▸ hgq).symm
  subst hqn
  subst hkv'
  exact ⟨mergeEntry_profile driver p default_profile pn "default",
    mergeEntry_default_extra_vars driver p pn⟩

/-- C5 (witness): the document `{platforms: [{name: p}]}` passes pre-merge
validation with the implicit default profile, and merging produces one entry
with `profile = default` and empty `extra_vars`. -/
theorem C5_witness :
    dlookup [("platforms", Value.list [Value.dict [("name", Value.str "p")]]),
        ("driver", Value.dict []), ("profiles", default_profiles)] "profiles"
      = some default_profiles
  ∧ ∃ m, merge_config [] [[("name", Value.str "p")]] [default_profile] = some m
      ∧ m.length = ([[("name", Value.str "p")]] : List Dict).length
      ∧ ∀ kv, kv ∈ m → dlookup kv.2 "profile" = some (Value.str "default")
          ∧ dlookup kv.2 "extra_vars" = some (Value.dict []) :=
  C5_default_profile [("platforms", Value.list [Value.dict [("name", Value.str "p")]])]
    [("platforms", Value.list [Value.dict [("name", Value.str "p")]]),
     ("driver", Value.dict []), ("profiles", default_profiles)]
    [] [[("name", Value.str "p")]] ["p"] rfl rfl rfl rfl (by decide)

/-- C6: duplicate names raise no error and the later record silently wins:
when two platforms share one name (or two profiles share one name), the
merged result is the single entry computed from the later of the two
duplicate records. -/
theorem C6_duplicate_overwrite :
    (∀ (driver p1 p2 q : Dict) (n m : String),
        getName p1 = some n → getName p2 = some n → getName q = some m →
        merge_config driver [p1, p2] [q]
          = some [(n ++ "-" ++ m, mergeEntry driver p2 q n m)])
  ∧ (∀ (driver p q1 q2 : Dict) (n m : String),
        getName p = some n → getName q1 = some m → getName q2 = some m →
        merge_config driver [p] [q1, q2]
          = some [(n ++ "-" ++ m, mergeEntry driver p q2 n m)]) := by
  constructor
  · intro driver p1 p2 q n m h1 h2 h3
    simp [merge_config, mergePairs, rowFor, mapMO, entryFor, h1, h2, h3, dinsert]
  · intro driver p q1 q2 n m h1 h2 h3
    simp [merge_config, mergePairs, rowFor, mapMO, entryFor, h1, h2, h3, dinsert]

/-- C6 (witness): two platforms both named `p` with different `image` fields,
against the default profile: the single resulting entry is the later
platform's record. -/
theorem C6_witness :
    merge_config [] [[("name", Value.str "p"), ("image", Value.str "one")],
        [("name", Value.str "p"), ("image", Value.str "two")]] [default_profile]
      = some [("p-default", mergeEntry [] [("name", Value.str "p"), ("image", Value.str "two")]
          default_profile "p" "default")] :=
  C6_duplicate_overwrite.1 [] [("name", Value.str "p"), ("image", Value.str "one")]
    [("name", Value.str "p"), ("image", Value.str "two")] default_profile "p" "default"
    rfl rfl rfl

/-- C7: the snapshot-id validator accepts `snap-deadbeef` and rejects
`snap-xyz` with the error message `Invalid snapshot_id: snap-xyz`, built by
`invalid` from the field kind and the offending value. -/
theorem C7_snapshot_id :
    is_snapshot_id "snap-deadbeef" = .ok "snap-deadbeef"
  ∧ is_snapshot_id "snap-xyz" = .error (invalid "snapshot_id" "snap-xyz")
  ∧ invalid "snapshot_id" "snap-xyz" = "Invalid snapshot_id: snap-xyz" :=
  ⟨rfl, rfl, rfl⟩

/-- C8: round-trip of the per-instance state record: serializing the
four-field record as `write_files` does and deserializing it as
`load_or_create_instance` does recovers the same `id`, `ip`, `keyname` and
`platform` values (for plain scalar values, i.e. newline-free strings, the
shape the modelled YAML codec covers). -/
theorem C8_state_roundtrip (id ip keyname platform : String)
    (h1 : '\n' ∉ id.data) (h2 : '\n' ∉ ip.data)
    (h3 : '\n' ∉ keyname.data) (h4 : '\n' ∉ platform.data) :
    load_or_create_instance (write_files id ip keyname platform)
      = some [("id", id), ("ip", ip), ("keyname", keyname), ("platform", platform)]
  ∧ (load_or_create_instance (write_files id ip keyname platform)).map
      (fun m => (dlookup m "id", dlookup m "ip", dlookup m "keyname", dlookup m "platform"))
      = some (some id, some ip, some keyname, some platform) := by
  have hrt : parseFlat (dumpFlat
      [("id", id), ("ip", ip), ("keyname", keyname), ("platform", platform)])
      = some [("id", id), ("ip", ip), ("keyname", keyname), ("platform", platform)] := by
    apply parseFlat_dumpFlat
    intro k v hkv
    simp at hkv
    rcases hkv with ⟨rfl, rfl⟩ | ⟨rfl, rfl⟩ | ⟨rfl, rfl⟩ | ⟨rfl, rfl⟩
    · exact ⟨by decide, by decide, h1⟩
    · exact ⟨by decide, by decide, h2⟩
    · exact ⟨by decide, by decide, h3⟩
    · exact ⟨by decide, by decide, h4⟩
  refine ⟨hrt, ?_⟩
  rw [load_or_create_instance, write_files, hrt]
  rfl

/-- C8 (witness): the concrete record (`i-0abc`, `10.0.0.1`,
`bossimage-xYz123`, `centos7`) round-trips. -/
theorem C8_witness :
    load_or_create_instance (write_files "i-0abc" "10.0.0.1" "bossimage-xYz123" "centos7")
      = some [("id", "i-0abc"), ("ip", "10.0.0.1"), ("keyname", "bossimage-xYz123"),
        ("platform", "centos7")]
  ∧ (load_or_create_instance (write_files "i-0abc" "10.0.0.1" "bossimage-xYz123" "centos7")).map
      (fun m => (dlookup m "id", dlookup m "ip", dlookup m "keyname", dlookup m "platform"))
      = some (some "i-0abc", some "10.0.0.1", some "bossimage-xYz123", some "centos7") :=
  C8_state_roundtrip "i-0abc" "10.0.0.1" "bossimage-xYz123" "centos7"
    (by decide) (by decide) (by decide) (by decide)

/-- C9: post-merge validation rejects any resolved record containing a key
outside the enumerated set {platform, profile, extra_vars, image,
instance_type, username, block_device_mappings}: the schema's default
`PREVENT_EXTRA` policy makes the whole validation fail rather than pass the
key through. -/
theorem C9_extra_keys_rejected (m : AssocD Dict) (key : String) (rec : Dict)
    (k : String) (v : Value)
    (h1 : (key, rec) ∈ m) (h2 : (k, v) ∈ rec)
    (h3 : k ∉ (["platform", "profile", "extra_vars", "image", "instance_type",
        "username", "block_device_mappings"] : List String)) :
    (post_merge_schema m).isOk = false := by
  simp only [List.mem_cons, List.not_mem_nil, or_false, not_or] at h3
  obtain ⟨hk1, hk2, hk3, hk4, hk5, hk6, hk7⟩ := h3
  have hfield : validateRecordField k v
      = .error ("extra keys not allowed @ " ++ k) := by
    rw [validateRecordField, if_neg hk1, if_neg hk2, if_neg hk3, if_neg hk4,
      if_neg hk5, if_neg hk6, if_neg hk7]
  have hinner : (mapME (fun kv => (validateRecordField kv.1 kv.2).map
      (fun w => (kv.1, w))) rec).isOk = false := by
    apply mapME_isOk_false_of_mem _ _ (k, v) h2
    rw [hfield]
    rfl
  have hrec : (validateRecord rec).isOk = false := by
    rw [validateRecord]
    cases hm : mapME (fun kv => (validateRecordField kv.1 kv.2).map
        (fun w => (kv.1, w))) rec with
    | error e => rfl
    | ok o => rw [hm] at hinner; simp [Except.isOk, Except.toBool] at hinner
  apply mapME_isOk_false_of_mem _ _ (key, rec) h1
  cases hv : validateRecord rec with
  | error e => rfl
  | ok o => rw [hv] at hrec; simp [Except.isOk, Except.toBool] at hrec

/-- C9 (witness): a resolved record containing the driver key `region` fails
post-merge validation. -/
theorem C9_witness :
    (post_merge_schema [("centos7-default",
      [("region", Value.str "us-east-1"), ("image", Value.str "ami-123"),
       ("instance_type", Value.str "t2.micro")])]).isOk = false :=
  C9_extra_keys_rejected _ "centos7-default"
    [("region", Value.str "us-east-1"), ("image", Value.str "ami-123"),
     ("instance_type", Value.str "t2.micro")]
    "region" (Value.str "us-east-1") (List.Mem.head _) (List.Mem.head _) (by decide)

/-- C10: the regex validators anchor only at the start of the string (Python
`re.match`): any string whose prefix matches the pattern is accepted with
arbitrary trailing characters — universally for a matching 8-hex-digit
snapshot prefix and a matching `ephemeral<digit>` prefix, and concretely for
`snap-0123456789` and `ephemeral0extra`. -/
theorem C10_prefix_match :
    (∀ t : String, is_snapshot_id ("snap-01234567" ++ t) = .ok ("snap-01234567" ++ t))
  ∧ (∀ t : String, is_virtual_name ("ephemeral0" ++ t) = .ok ("ephemeral0" ++ t))
  ∧ is_snapshot_id "snap-0123456789" = .ok "snap-0123456789"
  ∧ is_virtual_name "ephemeral0extra" = .ok "ephemeral0extra" := by
  refine ⟨?_, ?_, rfl, rfl⟩
  · intro t
    obtain ⟨ts⟩ := t
    rfl
  · intro t
    obtain ⟨ts⟩ := t
    rfl

end Bossimage
